import Mathlib

/-!
Shallow embedding of `src/cosmos-tx/src/tx/fee.rs` from the `cosmos-rust`
repository fragment: the `Fee` value type and its bidirectional conversions
to and from the protobuf wire type `cosmos::tx::v1beta1::Fee`.

The wire message type, the `Coin`, `Gas` and `AccountId` types and their
parsing come from crates outside the fragment; those are modelled from the
spec (each such definition says so in its doc comment).  The conversion
code itself (`TryFrom`/`From` impls and `Fee::from_amount_and_gas`) is
translated directly from `fee.rs`.
-/

/-- Modelled from the spec: the wire-side coin entry
(`cosmos::base::v1beta1::Coin`), whose fields are raw strings; a coin entry
on the wire may be malformed. -/
structure ProtoCoin where
  denom : String
  amount : String
deriving DecidableEq, Repr

/-- Modelled from the spec: the wire fee message
(`cosmos::tx::v1beta1::Fee`): "a fee message with four fields — a list of
coin-amount entries, an unsigned 64-bit gas limit, and two strings for
payer/granter (empty string = absent)".  The 64-bit gas limit is a `Nat`;
theorems about it carry the `< 2 ^ 64` bound where it matters. -/
structure ProtoFee where
  amount : List ProtoCoin
  gas_limit : Nat
  payer : String
  granter : String
deriving DecidableEq, Repr

/-- Modelled from the spec: decidable syntactic validity of a coin
denomination (nonempty, lowercase letters). The exact format lives outside
the fragment; what the claims need is that validity is a decidable check
that some strings pass and others fail. -/
def isValidDenom (s : String) : Bool :=
  !s.data.isEmpty && s.data.all Char.isLower

/-- Modelled from the spec: decidable syntactic validity of a coin amount
(nonempty, decimal digits). -/
def isValidAmount (s : String) : Bool :=
  !s.data.isEmpty && s.data.all Char.isDigit

/-- Modelled from the spec: a domain `Coin` ("an amount of a specific
fungible asset denomination") is a wire coin entry whose two fields are
syntactically valid. -/
def Coin : Type := { p : ProtoCoin // (isValidDenom p.denom && isValidAmount p.amount) = true }

instance : DecidableEq Coin := Subtype.instDecidableEq

/-- Modelled from the spec: the fallible per-entry coin conversion used by
`TryFrom<&cosmos::tx::v1beta1::Fee>` ("maps each coin entry through its own
conversion", failing on "any malformed coin entry"). -/
def Coin.try_from (p : ProtoCoin) : Except String Coin :=
  if h : (isValidDenom p.denom && isValidAmount p.amount) = true then
    .ok ⟨p, h⟩
  else
    .error "malformed coin"

/-- Modelled from the spec: the total encoding of a domain coin back to its
wire entry. -/
def Coin.to_proto (c : Coin) : ProtoCoin := c.val

/-- Modelled from the spec: decidable syntactic validity of an account
identifier ("a structured, parseable reference to a blockchain account";
"format defined by the surrounding system, not this fragment").  Modelled
as a nonempty string of lowercase letters and digits containing the
character `1` as a separator; the claims need only that validity is a
decidable check rejecting the empty string, passed by some strings and
failed by other nonempty ones. -/
def isValidAccountId (s : String) : Bool :=
  !s.data.isEmpty && s.data.all (fun c => c.isLower || c.isDigit) && s.data.contains '1'

/-- Modelled from the spec: a syntactically valid account identifier. -/
def AccountId : Type := { s : String // isValidAccountId s = true }

instance : DecidableEq AccountId := Subtype.instDecidableEq

/-- Modelled from the spec: fallible parsing of an account identifier from
a string (`str::parse::<AccountId>`), "modeled as a typed result
(success/parse-failure)". -/
def AccountId.parse (s : String) : Except String AccountId :=
  if h : isValidAccountId s = true then
    .ok ⟨s, h⟩
  else
    .error "malformed account identifier"

/-- Modelled from the spec: rendering an account identifier back to its
string form (`AccountId::to_string`), inverse of parsing. -/
def AccountId.to_string (a : AccountId) : String := a.val

/-- Modelled from the spec: `Gas`, "maximum computational budget permitted
for the transaction; numeric, convertible from a raw integer"; the wire
representation is a plain unsigned 64-bit integer and conversion is total
in both directions. -/
structure Gas where
  value : Nat
deriving DecidableEq, Repr

/-- Modelled from the spec: `impl From<u64> for Gas` (the `.into()` used at
`fee.rs` line 71). -/
def Gas.ofNat (n : Nat) : Gas := ⟨n⟩

/-- The `Fee` struct of `fee.rs` (lines 14-38): coin amounts, gas limit,
optional payer and optional granter. -/
structure Fee where
  amount : List Coin
  gas_limit : Gas
  payer : Option AccountId
  granter : Option AccountId
deriving DecidableEq

/-- `Fee::from_amount_and_gas` (`fee.rs` lines 43-50). -/
def Fee.from_amount_and_gas (amount : Coin) (gas_limit : Nat) : Fee :=
  { amount := [amount]
    gas_limit := Gas.ofNat gas_limit
    payer := none
    granter := none }

/-- `iter().map(TryFrom::try_from).collect::<Result<_, _>>()` over the wire
coin list (`fee.rs` lines 65-69): converts entries left to right,
short-circuiting on the first error. -/
def collectResults (l : List ProtoCoin) : Except String (List Coin) :=
  match l with
  | [] => .ok []
  | p :: ps => do
      let c ← Coin.try_from p
      let cs ← collectResults ps
      pure (c :: cs)

/-- `TryFrom<&cosmos::tx::v1beta1::Fee> for Fee` (`fee.rs` lines 61-89).
The source loops over `[&proto.payer, &proto.granter]`, testing `id` for
emptiness but parsing `proto.payer` in the else branch of BOTH iterations
(`fee.rs` line 79: `accounts[index] = Some(proto.payer.parse()?)`); the
two-iteration loop is unrolled here and both else branches parse
`proto.payer`, exactly as the source does. -/
def Fee.try_from (proto : ProtoFee) : Except String Fee := do
  let amount ← collectResults proto.amount
  let gas_limit := Gas.ofNat proto.gas_limit
  let payer ←
    if proto.payer.isEmpty then
      pure none
    else do
      pure (some (← AccountId.parse proto.payer))
  let granter ←
    if proto.granter.isEmpty then
      pure none
    else do
      pure (some (← AccountId.parse proto.payer))
  pure { amount, gas_limit, payer, granter }

/-- `TryFrom<cosmos::tx::v1beta1::Fee> for Fee` (`fee.rs` lines 53-59):
delegates to the by-reference impl. -/
def Fee.try_from_owned (proto : ProtoFee) : Except String Fee :=
  Fee.try_from proto

/-- `From<&Fee> for cosmos::tx::v1beta1::Fee` (`fee.rs` lines 97-114):
total encoding, rendering an absent payer/granter as the empty string
(`unwrap_or_default`). -/
def ProtoFee.from_fee (fee : Fee) : ProtoFee :=
  { amount := fee.amount.map Coin.to_proto
    gas_limit := fee.gas_limit.value
    payer :=
      match fee.payer with
      | some id => id.to_string
      | none => ""
    granter :=
      match fee.granter with
      | some id => id.to_string
      | none => "" }

/-- `From<Fee> for cosmos::tx::v1beta1::Fee` (`fee.rs` lines 91-95):
delegates to the by-reference impl. -/
def ProtoFee.from_fee_owned (fee : Fee) : ProtoFee :=
  ProtoFee.from_fee fee

/-! ## Helper lemmas -/

theorem exbind_ok {ε α β : Type} (a : α) (f : α → Except ε β) :
    (Except.ok a : Except ε α) >>= f = f a := rfl

theorem exbind_error {ε α β : Type} (e : ε) (f : α → Except ε β) :
    (Except.error e : Except ε α) >>= f = Except.error e := rfl

theorem expure_eq {ε α : Type} (a : α) :
    (pure a : Except ε α) = Except.ok a := rfl

/-- Spec-side helper describing one iteration of the decode loop: test the
field string for emptiness, but parse the payer string.  Used only to state
lemmas about `Fee.try_from`. -/
def decodeAccountField (payerStr idStr : String) : Except String (Option AccountId) :=
  if idStr.isEmpty then .ok none else (AccountId.parse payerStr).map some

theorem try_from_characterization (proto : ProtoFee) :
    Fee.try_from proto =
      (collectResults proto.amount).bind fun amount =>
        (decodeAccountField proto.payer proto.payer).bind fun payer =>
          (decodeAccountField proto.payer proto.granter).bind fun granter =>
            Except.ok { amount, gas_limit := Gas.ofNat proto.gas_limit, payer, granter } := by
  unfold Fee.try_from decodeAccountField
  cases hc : collectResults proto.amount with
  | error e => rfl
  | ok amt =>
    show Except.bind _ _ = Except.bind _ _
    simp only [hc, Except.bind]
    by_cases hp : proto.payer.isEmpty <;>
      by_cases hg : proto.granter.isEmpty <;>
        cases hparse : AccountId.parse proto.payer <;>
          simp [hp, hg, hparse, Except.map, Except.bind, bind, pure, Except.pure]

theorem collectResults_error_of_mem {l : List ProtoCoin} {c : ProtoCoin} {e : String}
    (hmem : c ∈ l) (herr : Coin.try_from c = .error e) :
    ∃ e2, collectResults l = .error e2 := by
  induction l with
  | nil => cases hmem
  | cons p ps ih =>
    rcases List.mem_cons.mp hmem with hcp | hcps
    · subst hcp
      exact ⟨e, by simp [collectResults, herr, exbind_error]⟩
    · cases hp : Coin.try_from p with
      | error e3 => exact ⟨e3, by simp [collectResults, hp, exbind_error]⟩
      | ok cc =>
        rcases ih hcps with ⟨e4, h4⟩
        exact ⟨e4, by simp [collectResults, hp, h4, exbind_ok, exbind_error]⟩

theorem collectResults_ok_shape {l : List ProtoCoin} {l2 : List Coin}
    (h : collectResults l = .ok l2) :
    l2.length = l.length ∧
      ∀ i (h1 : i < l.length) (h2 : i < l2.length),
        Coin.try_from (l.get ⟨i, h1⟩) = .ok (l2.get ⟨i, h2⟩) := by
  induction l generalizing l2 with
  | nil =>
    simp only [collectResults] at h
    cases h
    exact ⟨rfl, fun i h1 _ => absurd h1 (Nat.not_lt_zero i)⟩
  | cons p ps ih =>
    simp only [collectResults] at h
    cases hp : Coin.try_from p with
    | error e => rw [hp, exbind_error] at h; cases h
    | ok c =>
      rw [hp, exbind_ok] at h
      cases hps : collectResults ps with
      | error e => rw [hps, exbind_error] at h; cases h
      | ok cs =>
        rw [hps, exbind_ok, expure_eq] at h
        cases h
        rcases ih hps with ⟨hlen, hget⟩
        refine ⟨by simp [hlen], ?_⟩
        intro i h1 h2
        match i with
        | 0 => simpa using hp
        | Nat.succ j =>
          simp only [List.get]
          exact hget j (Nat.lt_of_succ_lt_succ h1) (Nat.lt_of_succ_lt_succ h2)

theorem collectResults_ok_mem {l : List ProtoCoin} {l2 : List Coin} {c : ProtoCoin}
    (h : collectResults l = .ok l2) (hmem : c ∈ l) :
    ∃ cc, Coin.try_from c = .ok cc := by
  induction l generalizing l2 with
  | nil => cases hmem
  | cons p ps ih =>
    simp only [collectResults] at h
    cases hp : Coin.try_from p with
    | error e => rw [hp, exbind_error] at h; cases h
    | ok cc =>
      rw [hp, exbind_ok] at h
      cases hps : collectResults ps with
      | error e => rw [hps, exbind_error] at h; cases h
      | ok cs =>
        rcases List.mem_cons.mp hmem with hcp | hcps
        · exact ⟨cc, hcp ▸ hp⟩
        · exact ih hps hcps

theorem Coin.try_from_to_proto (c : Coin) : Coin.try_from (Coin.to_proto c) = .ok c := by
  simp [Coin.try_from, Coin.to_proto, c.property]

theorem collectResults_map_to_proto (l : List Coin) :
    collectResults (l.map Coin.to_proto) = .ok l := by
  induction l with
  | nil => rfl
  | cons c cs ih =>
    simp [collectResults, Coin.try_from_to_proto, ih, exbind_ok, expure_eq]

theorem AccountId.parse_to_string (a : AccountId) :
    AccountId.parse (AccountId.to_string a) = .ok a := by
  simp [AccountId.parse, AccountId.to_string, a.property]

theorem AccountId.to_string_not_empty (a : AccountId) :
    (AccountId.to_string a).isEmpty = false := by
  have h := a.property
  unfold isValidAccountId at h
  simp only [Bool.and_eq_true, Bool.not_eq_true'] at h
  cases he : (AccountId.to_string a).isEmpty with
  | false => rfl
  | true =>
    have hs : AccountId.to_string a = "" := (String.isEmpty_iff _).mp he
    rw [AccountId.to_string] at hs
    rw [hs] at h
    simp at h

deriving instance DecidableEq for Except

theorem try_from_ok_elim {proto : ProtoFee} {fee : Fee}
    (h : Fee.try_from proto = .ok fee) :
    collectResults proto.amount = .ok fee.amount ∧
      fee.gas_limit = Gas.ofNat proto.gas_limit ∧
      decodeAccountField proto.payer proto.payer = .ok fee.payer ∧
      decodeAccountField proto.payer proto.granter = .ok fee.granter := by
  rw [try_from_characterization] at h
  cases hc : collectResults proto.amount <;> rw [hc] at h <;>
    simp only [Except.bind] at h
  · cases h
  case ok amt =>
    cases hp : decodeAccountField proto.payer proto.payer <;> rw [hp] at h <;>
      simp only [Except.bind] at h
    · cases h
    case ok p =>
      cases hg : decodeAccountField proto.payer proto.granter <;> rw [hg] at h <;>
        simp only [Except.bind] at h
      · cases h
      case ok gr =>
        cases h
        dsimp only
        exact ⟨rfl, rfl, rfl, rfl⟩

theorem try_from_ok_elim_amount {proto : ProtoFee} {fee : Fee}
    (h : Fee.try_from proto = .ok fee) :
    collectResults proto.amount = .ok fee.amount :=
  (try_from_ok_elim h).1

theorem try_from_ok_intro {proto : ProtoFee} {amt : List Coin}
    {p gr : Option AccountId}
    (hc : collectResults proto.amount = .ok amt)
    (hp : decodeAccountField proto.payer proto.payer = .ok p)
    (hg : decodeAccountField proto.payer proto.granter = .ok gr) :
    Fee.try_from proto =
      .ok { amount := amt, gas_limit := Gas.ofNat proto.gas_limit, payer := p, granter := gr } := by
  rw [try_from_characterization, hc]
  simp only [Except.bind]
  rw [hp]
  simp only [Except.bind]
  rw [hg]

theorem try_from_error_of_collect {proto : ProtoFee} {e : String}
    (hc : collectResults proto.amount = .error e) :
    Fee.try_from proto = .error e := by
  rw [try_from_characterization, hc]
  rfl

theorem try_from_error_of_granter_parse {proto : ProtoFee} {e : String}
    (hg : proto.granter.isEmpty = false)
    (hparse : AccountId.parse proto.payer = .error e) :
    ∃ e2, Fee.try_from proto = .error e2 := by
  rw [try_from_characterization]
  cases hc : collectResults proto.amount
  · exact ⟨_, rfl⟩
  · simp only [Except.bind]
    by_cases hp : proto.payer.isEmpty
    · exact ⟨e, by simp [decodeAccountField, hp, hg, hparse, Except.map, Except.bind]⟩
    · exact ⟨e, by simp [decodeAccountField, hp, hg, hparse, Except.map, Except.bind]⟩

/-! ## Concrete sample values -/

/-- A syntactically valid sample coin. -/
def coin0 : Coin := ⟨⟨"atom", "100"⟩, by decide⟩

/-- A syntactically valid sample account identifier. -/
def acct1 : AccountId := ⟨"cosmos1abc", by decide⟩

/-- A second, distinct valid sample account identifier. -/
def acct2 : AccountId := ⟨"cosmos1xyz", by decide⟩

/-- A wire fee with one valid coin and both identifier strings empty; used
as a concrete decode witness input. -/
def protoEmptyIds : ProtoFee := ⟨[⟨"atom", "100"⟩], 5, "", ""⟩

/-- The fee that `protoEmptyIds` decodes to. -/
def feeNone : Fee := ⟨[coin0], ⟨5⟩, none, none⟩

/-- A wire fee with a valid payer string and a nonempty granter string;
used as a concrete witness input for decode-path claims. -/
def protoValidPayer : ProtoFee := ⟨[], 0, "cosmos1abc", "zzz"⟩

/-! ## Claim theorems -/

/-- C1: the encode-then-decode round trip does NOT hold for every valid
combination of present/absent payer and granter: with `payer = none` and a
present granter the decode of the encoding fails outright, and with both
present and distinct the decode succeeds but returns the payer's value in
the granter field.  (The source parses `proto.payer` for the granter field,
`fee.rs` line 79.) -/
theorem fee_roundtrip_broken_by_granter :
    Fee.try_from (ProtoFee.from_fee
        { amount := [coin0], gas_limit := ⟨7⟩, payer := none, granter := some acct1 })
      = .error "malformed account identifier" ∧
    Fee.try_from (ProtoFee.from_fee
        { amount := [coin0], gas_limit := ⟨7⟩, payer := some acct1, granter := some acct2 })
      = .ok { amount := [coin0], gas_limit := ⟨7⟩, payer := some acct1, granter := some acct1 } ∧
    acct1 ≠ acct2 := by
  decide

/-- C2: decoding does NOT fail for every wire message whose granter string
is nonempty and syntactically invalid: when the payer string is a valid
identifier, the decoder (which parses `proto.payer` for the granter field,
`fee.rs` line 79) succeeds and never looks at the invalid granter string. -/
theorem decode_accepts_invalid_granter :
    isValidAccountId "%%%" = false ∧
    Fee.try_from { amount := [], gas_limit := 0, payer := "cosmos1abc", granter := "%%%" }
      = .ok { amount := [], gas_limit := ⟨0⟩, payer := some acct1, granter := some acct1 } := by
  decide

/-- C3: for every wire message with a nonempty granter string, the decoded
granter field is produced by parsing the PAYER string: if the payer string
parses, any successful decode has that parsed value as its granter
(whatever the granter string holds), and if the payer string does not parse
(in particular when it is empty) the whole decode fails. -/
theorem granter_decoded_from_payer_string (proto : ProtoFee)
    (hg : proto.granter.isEmpty = false) :
    (∀ a : AccountId, AccountId.parse proto.payer = .ok a →
        ∀ fee : Fee, Fee.try_from proto = .ok fee → fee.granter = some a) ∧
    (∀ e : String, AccountId.parse proto.payer = .error e →
        ∃ e2, Fee.try_from proto = .error e2) := by
  constructor
  · intro a hparse fee hfee
    have h := (try_from_ok_elim hfee).2.2.2
    simp [decodeAccountField, hg, hparse, Except.map] at h
    exact h.symm
  · intro e hparse
    exact try_from_error_of_granter_parse hg hparse

/-- C3 witness: concrete instance with a valid payer string and granter
string `"zzz"`. -/
theorem granter_decoded_from_payer_string_witness :
    (protoValidPayer.granter.isEmpty = false) ∧
    ((∀ a : AccountId, AccountId.parse protoValidPayer.payer = .ok a →
        ∀ fee : Fee, Fee.try_from protoValidPayer = .ok fee → fee.granter = some a) ∧
     (∀ e : String, AccountId.parse protoValidPayer.payer = .error e →
        ∃ e2, Fee.try_from protoValidPayer = .error e2)) :=
  ⟨by decide, granter_decoded_from_payer_string protoValidPayer (by decide)⟩

/-- C4: a fee with `payer = none` encodes to an empty payer string, and a
successfully decoded wire message with an empty payer string yields
`payer = none`; likewise for the granter field. -/
theorem absence_preserved_both_directions (fee : Fee) (proto : ProtoFee) (dfee : Fee)
    (hdec : Fee.try_from proto = .ok dfee) :
    (fee.payer = none → (ProtoFee.from_fee fee).payer = "") ∧
    (fee.granter = none → (ProtoFee.from_fee fee).granter = "") ∧
    (proto.payer = "" → dfee.payer = none) ∧
    (proto.granter = "" → dfee.granter = none) := by
  refine ⟨?_, ?_, ?_, ?_⟩
  · intro h; simp [ProtoFee.from_fee, h]
  · intro h; simp [ProtoFee.from_fee, h]
  · intro h
    have hp := (try_from_ok_elim hdec).2.2.1
    rw [h] at hp
    simp [decodeAccountField, show ("" : String).isEmpty = true from rfl] at hp
    exact hp.symm
  · intro h
    have hp := (try_from_ok_elim hdec).2.2.2
    rw [h] at hp
    simp [decodeAccountField, show ("" : String).isEmpty = true from rfl] at hp
    exact hp.symm

/-- C4 witness: concrete instance with both identifier strings empty. -/
theorem absence_preserved_both_directions_witness :
    Fee.try_from protoEmptyIds = .ok feeNone ∧
    ((feeNone.payer = none → (ProtoFee.from_fee feeNone).payer = "") ∧
     (feeNone.granter = none → (ProtoFee.from_fee feeNone).granter = "") ∧
     (protoEmptyIds.payer = "" → feeNone.payer = none) ∧
     (protoEmptyIds.granter = "" → feeNone.granter = none)) :=
  ⟨by decide, absence_preserved_both_directions feeNone protoEmptyIds feeNone (by decide)⟩

/-- C5: the decode is all-or-nothing: a malformed coin entry anywhere in
the wire list makes the whole decode return an error, a failing parse of a
nonempty payer string makes the whole decode return an error, and any
successful decode implies every coin entry converted successfully (no
partial result). -/
theorem decode_all_or_nothing (proto : ProtoFee) :
    (∀ c ∈ proto.amount, ∀ e, Coin.try_from c = .error e →
        ∃ e2, Fee.try_from proto = .error e2) ∧
    (proto.payer.isEmpty = false → ∀ e, AccountId.parse proto.payer = .error e →
        ∃ e2, Fee.try_from proto = .error e2) ∧
    (∀ fee, Fee.try_from proto = .ok fee → ∀ c ∈ proto.amount,
        ∃ cc, Coin.try_from c = .ok cc) := by
  refine ⟨?_, ?_, ?_⟩
  · intro c hmem e herr
    rcases collectResults_error_of_mem hmem herr with ⟨e2, h2⟩
    exact ⟨e2, try_from_error_of_collect h2⟩
  · intro hp e hparse
    rw [try_from_characterization]
    cases hc : collectResults proto.amount
    · exact ⟨_, rfl⟩
    · exact ⟨e, by simp [decodeAccountField, hp, hparse, Except.map, Except.bind]⟩
  · intro fee hfee c hmem
    exact collectResults_ok_mem (try_from_ok_elim hfee).1 hmem

/-- C5 witness: a wire fee whose single coin entry is malformed decodes to
an error. -/
theorem decode_all_or_nothing_witness :
    ∃ e2, Fee.try_from { amount := [⟨"", "x"⟩], gas_limit := 0, payer := "", granter := "" }
      = .error e2 :=
  (decode_all_or_nothing
      { amount := [⟨"", "x"⟩], gas_limit := 0, payer := "", granter := "" }).1
    ⟨"", "x"⟩ (by decide) "malformed coin" (by decide)

/-- C6: `Fee::from_amount_and_gas` returns exactly the one-element coin
list, the given gas value, and absent payer and granter. -/
theorem from_amount_and_gas_fields (c : Coin) (g : Nat) :
    (Fee.from_amount_and_gas c g).amount = [c] ∧
    (Fee.from_amount_and_gas c g).gas_limit.value = g ∧
    (Fee.from_amount_and_gas c g).payer = none ∧
    (Fee.from_amount_and_gas c g).granter = none :=
  ⟨rfl, rfl, rfl, rfl⟩

/-- C7: the gas-limit conversion is total and lossless in both directions:
`Into<Gas>` followed by `Gas::value` is the identity on 64-bit values, the
encoder emits exactly the stored gas value, and any successful decode
stores exactly the wire gas value. -/
theorem gas_limit_roundtrip_lossless (g : Nat) (h : g < 2 ^ 64) :
    (Gas.ofNat g).value = g ∧
    (∀ fee : Fee, fee.gas_limit = Gas.ofNat g → (ProtoFee.from_fee fee).gas_limit = g) ∧
    (∀ proto : ProtoFee, proto.gas_limit = g →
        ∀ fee : Fee, Fee.try_from proto = .ok fee → fee.gas_limit.value = g) := by
  refine ⟨rfl, ?_, ?_⟩
  · intro fee hf
    simp [ProtoFee.from_fee, hf, Gas.ofNat]
  · intro proto hp fee hfee
    have h2 := (try_from_ok_elim hfee).2.1
    rw [h2, hp]
    rfl

/-- C7 witness: concrete 64-bit gas value 3. -/
theorem gas_limit_roundtrip_lossless_witness :
    (3 : Nat) < 2 ^ 64 ∧
    ((Gas.ofNat 3).value = 3 ∧
     (∀ fee : Fee, fee.gas_limit = Gas.ofNat 3 → (ProtoFee.from_fee fee).gas_limit = 3) ∧
     (∀ proto : ProtoFee, proto.gas_limit = 3 →
        ∀ fee : Fee, Fee.try_from proto = .ok fee → fee.gas_limit.value = 3)) :=
  ⟨by decide, gas_limit_roundtrip_lossless 3 (by decide)⟩

/-- C8: encoding a fee to the wire format is total: both the by-reference
and the by-value conversion are plain functions that produce a wire message
for every fee, with no failure path in their result type. -/
theorem from_fee_total (fee : Fee) :
    ∃ proto : ProtoFee, ProtoFee.from_fee fee = proto ∧ ProtoFee.from_fee_owned fee = proto :=
  ⟨ProtoFee.from_fee fee, rfl, rfl⟩

/-- C9: the coin list's order is preserved: the encoder maps the fee's coin
list elementwise in order, and a successful decode produces a coin list of
the same length whose `i`-th element is the conversion of the `i`-th wire
entry. -/
theorem amount_order_preserved (fee : Fee) (proto : ProtoFee) (dfee : Fee)
    (hdec : Fee.try_from proto = .ok dfee) :
    (ProtoFee.from_fee fee).amount = fee.amount.map Coin.to_proto ∧
    dfee.amount.length = proto.amount.length ∧
    ∀ i (h1 : i < proto.amount.length) (h2 : i < dfee.amount.length),
      Coin.try_from (proto.amount.get ⟨i, h1⟩) = .ok (dfee.amount.get ⟨i, h2⟩) := by
  have hshape := collectResults_ok_shape (try_from_ok_elim hdec).1
  exact ⟨rfl, hshape.1, hshape.2⟩

/-- C9 witness: concrete one-coin decode. -/
theorem amount_order_preserved_witness :
    Fee.try_from protoEmptyIds = .ok feeNone ∧
    ((ProtoFee.from_fee feeNone).amount = feeNone.amount.map Coin.to_proto ∧
     feeNone.amount.length = protoEmptyIds.amount.length ∧
     ∀ i (h1 : i < protoEmptyIds.amount.length) (h2 : i < feeNone.amount.length),
       Coin.try_from (protoEmptyIds.amount.get ⟨i, h1⟩) = .ok (feeNone.amount.get ⟨i, h2⟩)) :=
  ⟨by decide, amount_order_preserved feeNone protoEmptyIds feeNone (by decide)⟩

/-- C10: the by-value conversion impls agree with the by-reference ones
they delegate to, in both directions. -/
theorem owned_impls_equal_ref_impls :
    (∀ proto : ProtoFee, Fee.try_from_owned proto = Fee.try_from proto) ∧
    (∀ fee : Fee, ProtoFee.from_fee_owned fee = ProtoFee.from_fee fee) :=
  ⟨fun _ => rfl, fun _ => rfl⟩
